import Mathlib

/-!
Verification of the invitation-controller logic of `src/main.py`
(a Telegram bulk-invite bot).

The embedding mirrors the module-level globals `session_stats` and
`stop_event`, the helper `add_user_to_group`, the batch driver
`process_users`, and the command dispatch in `handle_messages` guarded
by the `restricted` decorator.  External effects (the Telegram calls
`get_chat`/`add_chat_member`, sleeping, message delivery) are abstracted:
the success of an add is an oracle `addOk : String → Bool`, the value of
`stop_event.is_set()` observed at the check before item `i` of a run is
an oracle `stopSet : Nat → Bool`, and outbound messages are collected in
an event trace instead of being sent.
-/

namespace HInviteBot

/-- The global dict `session_stats = {'success': 0, 'failed': 0, 'total': 0}`
(src/main.py line 39). -/
structure SessionStats where
  success : Nat
  failed : Nat
  total : Nat
deriving Repr, DecidableEq

/-- Python's `s.startswith(c)` for a one-character pattern `c`, as used in
`add_user_to_group` (line 92): true iff the first character of `s` is `c`. -/
def firstCharIs (c : Char) (s : String) : Bool :=
  match s.data with
  | [] => false
  | a :: _ => a == c

/-- The normalization in `add_user_to_group` (lines 92-93):
`if not username.startswith('@'): username = f'@{username}'`. -/
def normalizeUsername (username : String) : String :=
  if firstCharIs '@' username then username else "@" ++ username

/-- `add_user_to_group` (lines 91-107).  `addOk u` abstracts whether the
`get_chat`/`add_chat_member` calls succeed for the normalized handle `u`.
Returns the updated counters and the function's boolean result. -/
def add_user_to_group (addOk : String → Bool) (username : String)
    (st : SessionStats) : SessionStats × Bool :=
  let u := normalizeUsername username
  if addOk u then ({ st with success := st.success + 1 }, true)
  else ({ st with failed := st.failed + 1 }, false)

/-- The admin notifications `process_users` can emit via `notify_admin`. -/
inductive Notification where
  /-- "❌ Файл с юзернеймами пуст или не найден" (line 112). -/
  | emptyFile
  /-- "⏹ Добавление остановлено" (line 120). -/
  | stopped
  /-- The progress message of lines 125-131, carrying `idx` and the counters. -/
  | progress (idx total success failed : Nat)
  /-- The completion report of lines 135-141. -/
  | report (total success failed : Nat)
deriving Repr, DecidableEq

/-- One observable event of a run: an attempted add (with the normalized
handle and its outcome), or an admin notification. -/
inductive Event where
  | attempt (username : String) (ok : Bool)
  | note (n : Notification)
deriving Repr, DecidableEq

/-- The attempted adds recorded in a trace, in order. -/
def attemptsOf : List Event → List (String × Bool)
  | [] => []
  | Event.attempt u ok :: es => (u, ok) :: attemptsOf es
  | Event.note _ :: es => attemptsOf es

/-- The notifications recorded in a trace, in order. -/
def notesOf : List Event → List Notification
  | [] => []
  | Event.attempt _ _ :: es => notesOf es
  | Event.note n :: es => n :: notesOf es

/-- The `for idx, username in enumerate(usernames, 1)` loop of
`process_users` (lines 117-133) together with the completion report sent
after natural exhaustion (lines 135-141).  `stopSet i` is the value of
`stop_event.is_set()` observed at the cancellation check that precedes
item `i` (1-based); it abstracts a concurrently issued Stop.  Returns the
final counters and the trace of attempts and notifications. -/
def processLoop (addOk : String → Bool) (stopSet : Nat → Bool) :
    List String → Nat → SessionStats → SessionStats × List Event
  | [], _, st =>
    (st, [Event.note (Notification.report st.total st.success st.failed)])
  | u :: rest, idx, st =>
    if stopSet idx then
      (st, [Event.note Notification.stopped])
    else
      let r := add_user_to_group addOk u st
      let notes : List Event :=
        if idx % 10 == 0 then
          [Event.note (Notification.progress idx r.1.total r.1.success r.1.failed)]
        else []
      let tail := processLoop addOk stopSet rest (idx + 1) r.1
      (tail.1, Event.attempt (normalizeUsername u) r.2 :: notes ++ tail.2)

/-- `process_users` (lines 109-141): on an empty (or unreadable, since
`load_usernames` returns `[]` on any exception) list it notifies the
admins and returns without touching the counters; otherwise it sets
`session_stats['total'] = len(usernames)` (line 115) — and nothing else —
and runs the loop from index 1. -/
def process_users (addOk : String → Bool) (stopSet : Nat → Bool)
    (usernames : List String) (st : SessionStats) :
    SessionStats × List Event :=
  if usernames.isEmpty then
    (st, [Event.note Notification.emptyFile])
  else
    processLoop addOk stopSet usernames 1 { st with total := usernames.length }

/-- The loop of lines 117-133 with the cancellation checks erased: what a
run executes up to (but excluding) the first check that observes the stop
flag.  No completion report is emitted. -/
def runTrace (addOk : String → Bool) :
    List String → Nat → SessionStats → SessionStats × List Event
  | [], _, st => (st, [])
  | u :: rest, idx, st =>
    let r := add_user_to_group addOk u st
    let notes : List Event :=
      if idx % 10 == 0 then
        [Event.note (Notification.progress idx r.1.total r.1.success r.1.failed)]
      else []
    let tail := runTrace addOk rest (idx + 1) r.1
    (tail.1, Event.attempt (normalizeUsername u) r.2 :: notes ++ tail.2)

/-- The two process-wide globals: `session_stats` and `stop_event`
(lines 38-39). -/
structure BotState where
  stats : SessionStats
  stopFlag : Bool
deriving Repr, DecidableEq

/-- The Start command: `handle_messages` lines 155-163 (clear `stop_event`
if it is set, reply, spawn `process_users`) followed by the entry of
`process_users` up to the first loop iteration (lines 110-115).  Returns
the global state at the first iteration boundary, whether the batch loop
was launched, and the notifications emitted before it. -/
def startCommand (usernames : List String) (s : BotState) :
    BotState × Bool × List Notification :=
  let s := { s with stopFlag := false }
  if usernames.isEmpty then
    (s, false, [Notification.emptyFile])
  else
    ({ s with stats := { s.stats with total := usernames.length } },
      true, [])

/-- A system state for interleaving analysis: the two globals plus the
batch loop's position — `pending` identities not yet attempted and the
`processed` index (the loop variable `idx` minus 1). -/
structure SysState where
  stats : SessionStats
  stopFlag : Bool
  pending : List String
  processed : Nat
deriving Repr, DecidableEq

/-- The atomic operations that can interleave (src/main.py):
Start (lines 155-163 + 110-115), one batch-loop iteration (117-133),
the ad-hoc single add of lines 199-211, Stop (165-170), and the
read-only Stats reply (172-183).  Add outcomes are the `ok` payloads. -/
inductive Action where
  | start (usernames : List String)
  | stepItem (ok : Bool)
  | addOne (ok : Bool)
  | stop
  | stats
deriving Repr, DecidableEq

/-- One atomic operation on the system state, mirroring the corresponding
lines of src/main.py.  `stepItem` first performs the cancellation check
(lines 118-121): if the flag is set the loop returns, abandoning the
pending items; otherwise it attempts the next identity (line 123),
advancing `processed` and one counter.  `addOne` runs `add_user_to_group`
(lines 101, 105): it touches only `success`/`failed`.  `stop` sets
`stop_event` (line 166) and nothing else.  `stats` only reads. -/
def step (s : SysState) : Action → SysState
  | Action.start us =>
    let s := { s with stopFlag := false }
    if us.isEmpty then s
    else
      { s with stats := { s.stats with total := us.length },
               pending := us, processed := 0 }
  | Action.stepItem ok =>
    match s.pending with
    | [] => s
    | _ :: rest =>
      if s.stopFlag then { s with pending := [] }
      else if ok then
        { s with stats := { s.stats with success := s.stats.success + 1 },
                 pending := rest, processed := s.processed + 1 }
      else
        { s with stats := { s.stats with failed := s.stats.failed + 1 },
                 pending := rest, processed := s.processed + 1 }
  | Action.addOne ok =>
    if ok then
      { s with stats := { s.stats with success := s.stats.success + 1 } }
    else
      { s with stats := { s.stats with failed := s.stats.failed + 1 } }
  | Action.stop => { s with stopFlag := true }
  | Action.stats => s

/-- Execute a sequence of interleaved operations. -/
def run (s : SysState) (as : List Action) : SysState := as.foldl step s

/-- The state at process startup: zeroed counters (line 39), clear flag
(line 38), no batch loop. -/
def initState : SysState := ⟨⟨0, 0, 0⟩, false, [], 0⟩

/-- The invariant claimed by the spec: `success + failed ≤ processed ≤ total`. -/
def statsInv (s : SysState) : Prop :=
  s.stats.success + s.stats.failed ≤ s.processed ∧
    s.processed ≤ s.stats.total

instance (s : SysState) : Decidable (statsInv s) := by
  unfold statsInv; infer_instance

/-- Actions available during a single run besides the batch step itself:
Stop and Stats (no AddOne, no second Start). -/
def isRunAction : Action → Bool
  | Action.stepItem _ => true
  | Action.stop => true
  | Action.stats => true
  | _ => false

/-- The strengthened inductive invariant: counters account for at most the
processed items, and position plus remaining work stays within `total`. -/
def runInv (s : SysState) : Prop :=
  s.stats.success + s.stats.failed ≤ s.processed ∧
    s.processed + s.pending.length ≤ s.stats.total

/-- The denial text of the `restricted` decorator (lines 63-66). -/
def denialMessage : String := "🚫 Доступ запрещен: нужны права администратора"

/-- The `restricted` decorator (lines 60-69): if the caller's id is not in
`ADMIN_IDS`, reply with the fixed denial text and return without invoking
the wrapped handler; otherwise delegate unchanged.  A handler maps the
system state to a new state plus the texts it sends. -/
def restricted (adminIds : List Nat)
    (handler : SysState → SysState × List String)
    (callerId : Nat) (s : SysState) : SysState × List String :=
  if callerId ∈ adminIds then handler s else (s, [denialMessage])

/-! ## Helper lemmas -/

theorem attemptsOf_append (xs ys : List Event) :
    attemptsOf (xs ++ ys) = attemptsOf xs ++ attemptsOf ys := by
  induction xs with
  | nil => rfl
  | cons e es ih => cases e <;> simp [attemptsOf, ih]

theorem notesOf_append (xs ys : List Event) :
    notesOf (xs ++ ys) = notesOf xs ++ notesOf ys := by
  induction xs with
  | nil => rfl
  | cons e es ih => cases e <;> simp [notesOf, ih]

theorem runTrace_total (addOk : String → Bool) (us : List String)
    (idx : Nat) (st : SessionStats) :
    (runTrace addOk us idx st).1.total = st.total := by
  induction us generalizing idx st with
  | nil => rfl
  | cons u rest ih =>
    simp only [runTrace, add_user_to_group]
    by_cases h : addOk (normalizeUsername u) <;> simp [h, ih]

theorem runTrace_success (addOk : String → Bool) (us : List String)
    (idx : Nat) (st : SessionStats) :
    (runTrace addOk us idx st).1.success =
      st.success + us.countP (fun u => addOk (normalizeUsername u)) := by
  induction us generalizing idx st with
  | nil => simp [runTrace]
  | cons u rest ih =>
    simp only [runTrace, add_user_to_group]
    by_cases h : addOk (normalizeUsername u) <;>
      (simp [h, ih, List.countP_cons]; try omega)

theorem runTrace_failed (addOk : String → Bool) (us : List String)
    (idx : Nat) (st : SessionStats) :
    (runTrace addOk us idx st).1.failed =
      st.failed + us.countP (fun u => !(addOk (normalizeUsername u))) := by
  induction us generalizing idx st with
  | nil => simp [runTrace]
  | cons u rest ih =>
    simp only [runTrace, add_user_to_group]
    by_cases h : addOk (normalizeUsername u) <;>
      (simp [h, ih, List.countP_cons]; try omega)

theorem runTrace_attempts (addOk : String → Bool) (us : List String)
    (idx : Nat) (st : SessionStats) :
    attemptsOf (runTrace addOk us idx st).2 =
      us.map (fun u => (normalizeUsername u, addOk (normalizeUsername u))) := by
  induction us generalizing idx st with
  | nil => rfl
  | cons u rest ih =>
    simp only [runTrace, add_user_to_group]
    by_cases h : addOk (normalizeUsername u) <;>
      by_cases h10 : idx % 10 == 0 <;>
        simp [h, h10, attemptsOf, attemptsOf_append, ih]

theorem runTrace_notes_empty (addOk : String → Bool) (us : List String)
    (idx : Nat) (st : SessionStats)
    (h : ∀ i, idx ≤ i → i < idx + us.length → i % 10 ≠ 0) :
    notesOf (runTrace addOk us idx st).2 = [] := by
  induction us generalizing idx st with
  | nil => rfl
  | cons u rest ih =>
    have h10 : (idx % 10 == 0) = false := by
      have := h idx le_rfl (by simp)
      simpa using this
    simp only [runTrace, add_user_to_group]
    by_cases hok : addOk (normalizeUsername u) <;>
      simp [hok, h10, notesOf, notesOf_append,
        ih (idx + 1) _ (fun i h1 h2 => h i (by omega) (by simp at h2 ⊢; omega))]

theorem processLoop_noStop (addOk : String → Bool) (us : List String)
    (idx : Nat) (st : SessionStats) :
    processLoop addOk (fun _ => false) us idx st =
      ((runTrace addOk us idx st).1,
        (runTrace addOk us idx st).2 ++
          [Event.note (Notification.report (runTrace addOk us idx st).1.total
            (runTrace addOk us idx st).1.success
            (runTrace addOk us idx st).1.failed)]) := by
  induction us generalizing idx st with
  | nil => rfl
  | cons u rest ih =>
    simp only [processLoop, runTrace, if_neg Bool.false_ne_true]
    simp [ih, List.append_assoc]

theorem firstCharIs_append_at (s : String) :
    firstCharIs '@' ("@" ++ s) = true := by
  cases s with
  | mk data => rfl

theorem countP_add_countP_not {α : Type} (p : α → Bool) (l : List α) :
    l.countP p + l.countP (fun a => !(p a)) = l.length := by
  induction l with
  | nil => rfl
  | cons a l ih =>
    by_cases h : p a <;> simp [List.countP_cons, h] <;> omega

/-! ## Claims -/

/-- C7: identity normalization is idempotent and canonicalizing: normalizing
twice equals normalizing once, the result always begins with the mention
marker, and both "alice" and "@alice" normalize to "@alice". -/
theorem C7_normalize_idempotent :
    (∀ s : String, normalizeUsername (normalizeUsername s) = normalizeUsername s) ∧
      (∀ s : String, firstCharIs '@' (normalizeUsername s) = true) ∧
      normalizeUsername "alice" = "@alice" ∧
      normalizeUsername "@alice" = "@alice" := by
  have hstart : ∀ s : String, firstCharIs '@' (normalizeUsername s) = true := by
    intro s
    unfold normalizeUsername
    cases hx : firstCharIs '@' s with
    | true => simpa using hx
    | false => simpa using firstCharIs_append_at s
  refine ⟨?_, hstart, by decide, by decide⟩
  intro s
  unfold normalizeUsername
  cases hx : firstCharIs '@' s with
  | true => simp [hx]
  | false => simp [hx, firstCharIs_append_at s]

/-- C8: Stop is idempotent and total: in every system state (a job running
or not) it sets the cancellation flag and changes nothing else, and doing
it twice leaves the state identical to doing it once. -/
theorem C8_stop_idempotent (s : SysState) :
    step s Action.stop = { s with stopFlag := true } ∧
      step (step s Action.stop) Action.stop = step s Action.stop :=
  ⟨rfl, rfl⟩

/-- C9: a caller outside the admin allow-list receives exactly the fixed
denial message and nothing else happens: the state is returned unchanged
and the wrapped handler is never consulted (the result is independent of
it). -/
theorem C9_non_admin_denied (adminIds : List Nat)
    (handler : SysState → SysState × List String) (callerId : Nat)
    (s : SysState) (h : callerId ∉ adminIds) :
    restricted adminIds handler callerId s = (s, [denialMessage]) := by
  simp [restricted, h]

/-- Witness: caller 2 against allow-list [1]. -/
theorem C9_witness :
    (2 : Nat) ∉ [1] ∧
      restricted [1] (fun s => (s, [])) 2 initState = (initState, [denialMessage]) :=
  ⟨by decide, C9_non_admin_denied [1] (fun s => (s, [])) 2 initState (by decide)⟩

/-- C1 fails as stated: Start does not reset the success/failed counters.
Starting over a 2-element list from counters success=3, failed=2 leaves
them at 3 and 2; only total is set (to 2) and the flag cleared. -/
theorem C1_counterexample :
    startCommand ["a", "b"] ⟨⟨3, 2, 7⟩, true⟩ ≠ (⟨⟨0, 0, 2⟩, false⟩, true, []) := by
  decide

/-- C1 (amended): when Start succeeds it clears any pending cancellation
flag and sets total to the list length, but success and failed keep their
prior values — they are never reset. -/
theorem C1_start_clears_flag_sets_total (usernames : List String)
    (s : BotState) (h : usernames.isEmpty = false) :
    startCommand usernames s =
      (⟨⟨s.stats.success, s.stats.failed, usernames.length⟩, false⟩, true, []) := by
  simp [startCommand, h]

/-- Witness: starting over ["x", "y"] from stale counters and a set flag. -/
theorem C1_witness :
    ((["x", "y"] : List String).isEmpty = false) ∧
      startCommand ["x", "y"] ⟨⟨3, 2, 7⟩, true⟩ = (⟨⟨3, 2, 2⟩, false⟩, true, []) :=
  ⟨rfl, C1_start_clears_flag_sets_total ["x", "y"] ⟨⟨3, 2, 7⟩, true⟩ rfl⟩

/-- C5 fails as stated: on an empty source Start does mutate state — it
clears a pending cancellation flag (handle_messages clears stop_event
before process_users ever checks the list). -/
theorem C5_counterexample :
    (startCommand [] ⟨⟨0, 0, 0⟩, true⟩).1 ≠ ⟨⟨0, 0, 0⟩, true⟩ := by
  decide

/-- C5 (amended): on an empty or unreadable source, Start sends the
"no identities found" notification, launches no batch loop, and leaves
SessionStats (hence counters that were zero stay zero) untouched; the
cancellation flag, however, is cleared rather than left unchanged. -/
theorem C5_empty_source (s : BotState) :
    startCommand [] s = (⟨s.stats, false⟩, false, [Notification.emptyFile]) :=
  rfl

/-- C2 fails as stated: the claim quantifies over every initial
SessionStats, but the code never resets success/failed, so a job over one
identity started from success=1 ends with success + failed = 2 ≠ 1. -/
theorem C2_counterexample :
    (process_users (fun _ => true) (fun _ => false) ["a"] ⟨1, 0, 0⟩).1.success +
        (process_users (fun _ => true) (fun _ => false) ["a"] ⟨1, 0, 0⟩).1.failed ≠ 1 := by
  decide

/-- C2 (amended): for a job over N identities that runs to natural
completion and starts with the success and failed counters at zero,
success + failed = N at completion and the number of processed
(attempted) identities is N; for nonzero initial counters the sum exceeds
N by their initial values, since Start does not reset them. -/
theorem C2_completion_counts (addOk : String → Bool) (us : List String)
    (st : SessionStats) (hs : st.success = 0) (hf : st.failed = 0) :
    (processLoop addOk (fun _ => false) us 1 st).1.success +
        (processLoop addOk (fun _ => false) us 1 st).1.failed = us.length ∧
      (attemptsOf (processLoop addOk (fun _ => false) us 1 st).2).length = us.length := by
  rw [processLoop_noStop]
  constructor
  · simp only [runTrace_success, runTrace_failed, hs, hf, Nat.zero_add]
    exact countP_add_countP_not _ us
  · simp [attemptsOf_append, runTrace_attempts, attemptsOf]

/-- Witness: three identities, all adds succeeding, counters initially
zero. -/
theorem C2_witness :
    (processLoop (fun _ => true) (fun _ => false) ["a", "b", "c"] 1 ⟨0, 0, 3⟩).1.success +
        (processLoop (fun _ => true) (fun _ => false) ["a", "b", "c"] 1 ⟨0, 0, 3⟩).1.failed =
        (["a", "b", "c"] : List String).length ∧
      (attemptsOf (processLoop (fun _ => true) (fun _ => false) ["a", "b", "c"] 1 ⟨0, 0, 3⟩).2).length =
        (["a", "b", "c"] : List String).length :=
  C2_completion_counts (fun _ => true) ["a", "b", "c"] ⟨0, 0, 3⟩ rfl rfl

/-- C6: over an uncancelled run, the attempted adds are exactly one per
identity, in source order (hence exactly one Membership Client invocation
each, no retry); the success counter grows by the number of successful
adds and the failed counter by the number of failed ones, so a
per-identity failure never aborts the run — every identity is still
attempted. -/
theorem C6_exactly_once (addOk : String → Bool) (us : List String)
    (idx : Nat) (st : SessionStats) :
    attemptsOf (processLoop addOk (fun _ => false) us idx st).2 =
        us.map (fun u => (normalizeUsername u, addOk (normalizeUsername u))) ∧
      (processLoop addOk (fun _ => false) us idx st).1.success =
        st.success + us.countP (fun u => addOk (normalizeUsername u)) ∧
      (processLoop addOk (fun _ => false) us idx st).1.failed =
        st.failed + us.countP (fun u => !(addOk (normalizeUsername u))) := by
  rw [processLoop_noStop]
  refine ⟨?_, ?_, ?_⟩
  · simp [attemptsOf_append, runTrace_attempts, attemptsOf]
  · simp [runTrace_success]
  · simp [runTrace_failed]

/-- C10: a natural-completion run over fewer than 10 identities emits no
progress notification — its notification trace is exactly the single
final completion report — because the progress message fires only when
the 1-based index is a multiple of 10, which never happens below 10. -/
theorem C10_no_progress_under_ten (addOk : String → Bool) (us : List String)
    (st : SessionStats) (h : us.length < 10) :
    notesOf (processLoop addOk (fun _ => false) us 1 st).2 =
      [Notification.report
        (processLoop addOk (fun _ => false) us 1 st).1.total
        (processLoop addOk (fun _ => false) us 1 st).1.success
        (processLoop addOk (fun _ => false) us 1 st).1.failed] := by
  rw [processLoop_noStop]
  have hn : notesOf (runTrace addOk us 1 st).2 = [] := by
    refine runTrace_notes_empty addOk us 1 st ?_
    intro i h1 h2
    have hi : i < 10 := by omega
    have := Nat.mod_eq_of_lt hi
    omega
  simp [notesOf_append, hn, notesOf]

/-- Witness: a two-identity run reports once and shows no progress
message. -/
theorem C10_witness :
    (["a", "b"] : List String).length < 10 ∧
      notesOf (processLoop (fun _ => true) (fun _ => false) ["a", "b"] 1 ⟨0, 0, 2⟩).2 =
        [Notification.report
          (processLoop (fun _ => true) (fun _ => false) ["a", "b"] 1 ⟨0, 0, 2⟩).1.total
          (processLoop (fun _ => true) (fun _ => false) ["a", "b"] 1 ⟨0, 0, 2⟩).1.success
          (processLoop (fun _ => true) (fun _ => false) ["a", "b"] 1 ⟨0, 0, 2⟩).1.failed] :=
  ⟨by decide, C10_no_progress_under_ten (fun _ => true) ["a", "b"] ⟨0, 0, 2⟩ (by decide)⟩

theorem runInv_step (s : SysState) (a : Action) (hs : runInv s)
    (ha : isRunAction a = true) : runInv (step s a) := by
  cases a with
  | start us => simp [isRunAction] at ha
  | addOne ok => simp [isRunAction] at ha
  | stop => simpa [step, runInv] using hs
  | stats => simpa [step, runInv] using hs
  | stepItem ok =>
    obtain ⟨⟨suc, fl, tot⟩, flag, pending, proc⟩ := s
    simp only [runInv] at hs
    cases pending with
    | nil => simpa [step, runInv] using hs
    | cons u rest =>
      simp only [List.length_cons] at hs
      cases flag <;> cases ok <;>
        simp only [step, runInv] <;> simp <;> omega

theorem runInv_run (s : SysState) (as : List Action) (hs : runInv s)
    (ha : ∀ a ∈ as, isRunAction a = true) : runInv (run s as) := by
  induction as generalizing s with
  | nil => exact hs
  | cons a as ih =>
    exact ih (step s a) (runInv_step s a hs (ha a (List.mem_cons_self a as)))
      (fun b hb => ha b (List.mem_cons_of_mem a hb))

/-- C3 fails as stated: AddOne writes the shared counters without touching
the processed index, so the interleaving Start; AddOne (a successful
ad-hoc add during a run) reaches a state with success + failed = 1 but
processed = 0. -/
theorem C3_counterexample :
    ¬ statsInv (run initState [Action.start ["a"], Action.addOne true]) := by
  decide

/-- C3 (amended): the invariant success + failed ≤ processed ≤ total does
hold at every observation point of interleavings of the batch per-item
step, Stop, and Stats after a fresh Start from process startup — but not
once AddOne (or a second Start over stale counters) is interleaved, since
those mutate the counters without the processed index. -/
theorem C3_run_invariant (us : List String) (as : List Action)
    (ha : ∀ a ∈ as, isRunAction a = true) :
    statsInv (run (step initState (Action.start us)) as) := by
  have h0 : runInv (step initState (Action.start us)) := by
    cases hus : us.isEmpty <;> simp [step, initState, runInv, hus]
  have h1 := runInv_run _ as h0 ha
  exact ⟨h1.1, Nat.le_trans (Nat.le_add_right _ _) h1.2⟩

/-- Witness: a run over two identities interleaving one batch step, a
Stop, and a Stats read. -/
theorem C3_witness :
    (∀ a ∈ [Action.stepItem true, Action.stop, Action.stats], isRunAction a = true) ∧
      statsInv (run (step initState (Action.start ["a", "b"]))
        [Action.stepItem true, Action.stop, Action.stats]) :=
  ⟨by decide, C3_run_invariant ["a", "b"] _ (by decide)⟩

/-- C4: if the cancellation flag is first observed set at the check before
item j (it was clear at every earlier check and the run reaches check j),
the loop halts there: the run equals the uncancelled execution of exactly
the first j - idx items followed by the stopped-early notification — so
no identity at or after the boundary is ever attempted and the counters
never change after the flag is observed. -/
theorem C4_stop_halts_loop (addOk : String → Bool) (stopSet : Nat → Bool)
    (us : List String) (idx j : Nat) (st : SessionStats) :
    idx ≤ j → j - idx < us.length → stopSet j = true →
    (∀ i, i < j → idx ≤ i → stopSet i = false) →
    processLoop addOk stopSet us idx st =
      ((runTrace addOk (us.take (j - idx)) idx st).1,
        (runTrace addOk (us.take (j - idx)) idx st).2 ++
          [Event.note Notification.stopped]) := by
  induction us generalizing idx st with
  | nil =>
    intro _ hlt _ _
    simp at hlt
  | cons u rest ih =>
    intro hij hlt hj hpre
    rcases Nat.eq_or_lt_of_le hij with heq | hlt2
    · subst heq
      simp [processLoop, hj, Nat.sub_self, runTrace]
    · have h0 : stopSet idx = false := hpre idx hlt2 le_rfl
      have hk : j - idx = (j - (idx + 1)) + 1 := by omega
      have ihx := ih (idx + 1) (add_user_to_group addOk u st).1
        hlt2 (by simp at hlt; omega) hj (fun i h1 h2 => hpre i h1 (by omega))
      rw [hk]
      simp only [processLoop, h0, Bool.false_eq_true, if_false, List.take_succ_cons,
        runTrace, ihx]
      simp [List.append_assoc]

/-- Witness: three identities, the flag first observed set at the check
before item 2 (so exactly item 1 is attempted, then the stopped
notification). -/
theorem C4_witness :
    (1 ≤ 2) ∧ (2 - 1 < (["a", "b", "c"] : List String).length) ∧
      ((fun i => decide (1 < i)) 2 = true) ∧
      (∀ i, i < 2 → 1 ≤ i → (fun i => decide (1 < i)) i = false) ∧
      processLoop (fun _ => true) (fun i => decide (1 < i)) ["a", "b", "c"] 1 ⟨0, 0, 3⟩ =
        ((runTrace (fun _ => true) ((["a", "b", "c"] : List String).take (2 - 1)) 1 ⟨0, 0, 3⟩).1,
          (runTrace (fun _ => true) ((["a", "b", "c"] : List String).take (2 - 1)) 1 ⟨0, 0, 3⟩).2 ++
            [Event.note Notification.stopped]) :=
  ⟨by decide, by decide, by decide, by decide,
    C4_stop_halts_loop (fun _ => true) (fun i => decide (1 < i)) ["a", "b", "c"] 1 2
      ⟨0, 0, 3⟩ (by decide) (by decide) (by decide) (by decide)⟩

end HInviteBot
